import Mathlib

/-!
# rdf2smw: a shallow embedding of `main.go`

The program is a three-stage pipeline (`FileReader`, `TurtleToTriples`,
`TriplePrinter`; a fourth stage, `TripleParser`, is defined but not wired in).
Every stage is a sequential loop `for x := range In { ... Out <- y }` with a
deferred `close(Out)`.  A stage is embedded as a function from the sequence of
values it receives on its inbound channel (up to the close of that channel) to
the sequence of observable events it performs, together with the way the
goroutine ends.

What lies outside the repository is a parameter of the embedding:

* `os.Open` and `bufio.Scanner` are a `FileSystem`, mapping a name either to an
  error text or to the successive results of `Scan()`, `Text()` and `Err()`;
* `turtle.Parse` is a function `String → Except String (List Triple)`;
* `strings.Split` and the `%s` / `%v` verbs of `fmt` are modelled after the Go
  standard library documentation (`Split`, `Sprintf`).

Go strings are embedded as Lean strings: the separator and the formats of the
program are ASCII, so splitting and formatting by character agrees with Go's
byte-wise work on UTF-8 text.  Debug logging (`flowbase.Debug`, discarded at
the `Info` level that `main` selects) is not an event.

A run that panics carries its deferred calls out before the process crashes
(so `close(Out)` still happens); a run that exits the process does not.
-/

namespace Rdf2smw

/-! ## Constants and data -/

/-- Channel capacity, `const BUFSIZE = 16`. -/
def BUFSIZE : Nat := 16

/-- The struct `RDFTriple` of `main.go`. -/
structure RDFTriple where
  Subject : String
  Predicate : String
  Object : String
deriving DecidableEq, Repr

/-- The constructor `NewRDFTriple`: all fields are the zero value. -/
def NewRDFTriple : RDFTriple := ⟨"", "", ""⟩

/-- The struct `turtle.Triple` as `TriplePrinter.Run` uses it: three fields
printed with `%s`. -/
structure Triple where
  Subj : String
  Pred : String
  Obj : String
deriving DecidableEq, Repr

/-! ## Events and outcomes of a goroutine -/

/-- Run-time panics raised by the code under study. -/
inductive RuntimeError where
  /-- Go's `index out of range [i] with length n`. -/
  | indexOutOfRange (i n : Nat)
deriving DecidableEq, Repr

/-- How the body of a goroutine ends. -/
inductive Outcome where
  /-- The function returns (the inbound channel was closed and drained). -/
  | returned
  /-- The call `os.Exit(code)`, also reached through `log.Fatal`: the process
  ends at once and deferred calls do not run. -/
  | exited (code : Nat)
  /-- An unrecovered run-time panic: deferred calls run, then the process
  crashes. -/
  | panicked (e : RuntimeError)
  /-- The loop `for x := range In` waits for a value on a channel that is empty
  and is never closed. -/
  | blocked
deriving DecidableEq, Repr

/-- Observable events of a stage whose outbound channel carries `α`. -/
inductive Event (α : Type) where
  /-- A send `Out <- a`. -/
  | send (a : α)
  /-- The call `close(Out)`. -/
  | close
  /-- The call `fh.Close()` on the handle opened for `name`. -/
  | release (name : String)
  /-- A message handed to an error logger (`log.Fatal`, `flowbase.Error`). -/
  | stderr (msg : String)
  /-- Text written to standard output. -/
  | stdout (text : String)
deriving DecidableEq, Repr

/-- A function body in execution: the events so far, the deferred calls
registered so far (oldest first) and the way the body ended. -/
structure Exec (α : Type) where
  events : List (Event α)
  defers : List (Event α)
  outcome : Outcome

/-- A finished run of a stage. -/
structure Trace (α : Type) where
  events : List (Event α)
  outcome : Outcome
deriving DecidableEq

/-- Go's rule for deferred calls: they run last-registered-first when the
function returns or panics, and not at all when the process exits. -/
def Exec.finish {α : Type} (x : Exec α) : Trace α :=
  match x.outcome with
  | .exited code => ⟨x.events, .exited code⟩
  | o => ⟨x.events ++ x.defers.reverse, o⟩

/-- The end of a stage whose loop body is `x`: with the inbound channel closed
and drained the function comes to its end as in `Exec.finish`; with an inbound
channel that is never closed, a loop that has handled every value waits. -/
def Exec.endOn {α : Type} (inClosed : Bool) (x : Exec α) : Trace α :=
  match x.outcome, inClosed with
  | .returned, false => ⟨x.events, .blocked⟩
  | _, _ => x.finish

/-- Whether the run closed its outbound channel. -/
def Trace.closedOut {α : Type} (t : Trace α) : Bool :=
  t.events.any (fun e => match e with
    | .close => true
    | _ => false)

/-- Put the event `e` in front of an execution. -/
def Exec.after {α : Type} (e : Event α) (x : Exec α) : Exec α :=
  ⟨e :: x.events, x.defers, x.outcome⟩

/-- The values sent on the outbound channel, in order. -/
def sentOf {α : Type} : List (Event α) → List α
  | [] => []
  | .send a :: rest => a :: sentOf rest
  | _ :: rest => sentOf rest

/-- The text on standard output: the writes, concatenated in order. -/
def stdoutOf {α : Type} : List (Event α) → String
  | [] => ""
  | .stdout t :: rest => t ++ stdoutOf rest
  | _ :: rest => stdoutOf rest

/-! ## Library functions used by the program -/

/-- The scan of `strings.Split` for a non-empty separator: `skip` counts the
characters of a matched separator still to be passed over, `cur` is the token
read so far. -/
def genSplit (sep : List Char) : Nat → List Char → List Char → List (List Char)
  | _, cur, [] => [cur]
  | skip + 1, cur, _ :: rest => genSplit sep skip cur rest
  | 0, cur, c :: rest =>
    if sep.isPrefixOf (c :: rest) then cur :: genSplit sep (sep.length - 1) [] rest
    else genSplit sep 0 (cur ++ [c]) rest

/-- Go's `strings.Split(s, sep)`: the substrings of `s` between the
(leftmost, non-overlapping) occurrences of `sep`; with an empty `sep`, one
string per character. -/
def Split (s sep : String) : List String :=
  if sep.data = [] then s.data.map (fun c => String.mk [c])
  else (genSplit sep.data 0 [] s.data).map String.mk

/-- Expansion of a `fmt` format over string operands: `%s` and `%v` take the
next operand (and report a missing one), `%%` is a percent sign, a percent
sign at the very end has no verb, and every other character is copied.  The
formats of the program use no other verb. -/
def formatChars : List Char → List String → List Char
  | [], _ => []
  | [c], _ => if c = '%' then "%!(NOVERB)".data else [c]
  | c :: d :: rest, args =>
    if c = '%' then
      if d = '%' then '%' :: formatChars rest args
      else if d = 's' ∨ d = 'v' then
        match args with
        | a :: more => a.data ++ formatChars rest more
        | [] => "%!".data ++ d :: "(MISSING)".data ++ formatChars rest []
      else c :: formatChars (d :: rest) args
    else c :: formatChars (d :: rest) args

/-- Go's `fmt.Sprintf` restricted to string operands. -/
def Sprintf (format : String) (args : List String) : String :=
  String.mk (formatChars format.data args)

/-- Indexing of a slice, `bits[i]`, with Go's bounds check. -/
def index (bits : List String) (i : Nat) : Except RuntimeError String :=
  match bits[i]? with
  | some x => .ok x
  | none => .error (.indexOutOfRange i bits.length)

/-! ## FileReader -/

/-- One call of `sc.Scan()` that returned `true`: the token `sc.Text()` and the
value of `sc.Err()` right after it (`none` is `nil`).  A `bufio.Scanner` hands
out a last, unterminated token together with a pending read error. -/
structure ScanStep where
  text : String
  err : Option String
deriving DecidableEq, Repr

/-- What a `bufio.Scanner` over an opened handle delivers: the successful
scans, and the value of `sc.Err()` once `sc.Scan()` has returned `false`
(`none` for a plain end of input). -/
structure Scanner where
  scans : List ScanStep
  finalErr : Option String
deriving DecidableEq, Repr

/-- The collaborator `os.Open` followed by `bufio.NewScanner`: an error text,
or the scanner over the opened handle. -/
abbrev FileSystem := String → Except String Scanner

/-- The inner loop `for sc.Scan()`: its body reads `sc.Err()`, calls
`log.Fatal(err)` when that is not `nil`, and otherwise sends `sc.Text()` on
`OutLine`.  When `sc.Scan()` returns `false` the loop is left and `sc.Err()`
is not read again. -/
def FileReader.scanLoop : List ScanStep → Exec String
  | [] => ⟨[], [], .returned⟩
  | step :: rest =>
    match step.err with
    | some err => ⟨[.stderr err], [], .exited 1⟩
    | none => (FileReader.scanLoop rest).after (.send step.text)

/-- The outer loop `for fileName := range p.InFileName`. -/
def FileReader.forFiles (fs : FileSystem) : List String → Exec String
  | [] => ⟨[], [], .returned⟩
  | fileName :: rest =>
    match fs fileName with
    | .error err => ⟨[.stderr err], [], .exited 1⟩
    | .ok sc =>
      let inner := FileReader.scanLoop sc.scans
      match inner.outcome with
      | .returned =>
        let next := FileReader.forFiles fs rest
        ⟨inner.events ++ next.events, .release fileName :: next.defers, next.outcome⟩
      | o => ⟨inner.events, [.release fileName], o⟩

/-- The body of `FileReader.Run`: `defer close(p.OutLine)`, then the loop. -/
def FileReader.body (fs : FileSystem) (fileNames : List String) : Exec String :=
  let loop := FileReader.forFiles fs fileNames
  ⟨loop.events, .close :: loop.defers, loop.outcome⟩

/-- The method `FileReader.Run`, on the names received on `InFileName` up to
its close. -/
def FileReader.Run (fs : FileSystem) (fileNames : List String) : Trace String :=
  (FileReader.body fs fileNames).finish

/-! ## TripleParser -/

/-- The loop body of `TripleParser.Run` up to the send: split the line and read
`bits[0]`, `bits[1]`, `bits[2]` in that order. -/
def TripleParser.decode (line : String) : Except RuntimeError RDFTriple := do
  let triple := NewRDFTriple
  let bits := Split line " "
  let triple := { triple with Subject := ← index bits 0 }
  let triple := { triple with Predicate := ← index bits 1 }
  let triple := { triple with Object := ← index bits 2 }
  pure triple

/-- The loop `for line := range p.In` of `TripleParser.Run`. -/
def TripleParser.forLines : List String → Exec RDFTriple
  | [] => ⟨[], [], .returned⟩
  | line :: rest =>
    match TripleParser.decode line with
    | .error e => ⟨[], [], .panicked e⟩
    | .ok triple => (TripleParser.forLines rest).after (.send triple)

/-- The body of `TripleParser.Run`: `defer close(p.Out)`, then the loop. -/
def TripleParser.body (lines : List String) : Exec RDFTriple :=
  let loop := TripleParser.forLines lines
  ⟨loop.events, .close :: loop.defers, loop.outcome⟩

/-- The method `TripleParser.Run`, on the lines received on `In` up to its
close. -/
def TripleParser.Run (lines : List String) : Trace RDFTriple :=
  (TripleParser.body lines).finish

/-! ## TurtleToTriples -/

/-- The collaborator `turtle.Parse`: the triples of one line, in the order
produced, or an error text. -/
abbrev TurtleParse := String → Except String (List Triple)

/-- The loop `for line := range p.In` of `TurtleToTriples.Run`. -/
def TurtleToTriples.forLines (parse : TurtleParse) : List String → Exec Triple
  | [] => ⟨[], [], .returned⟩
  | line :: rest =>
    match parse line with
    | .error err => ⟨[.stderr (Sprintf "Error parsing turtle: %v" [err])], [], .exited 1⟩
    | .ok triples =>
      let next := TurtleToTriples.forLines parse rest
      ⟨triples.map .send ++ next.events, next.defers, next.outcome⟩

/-- The body of `TurtleToTriples.Run`: `defer close(p.Out)`, then the loop. -/
def TurtleToTriples.body (parse : TurtleParse) (lines : List String) : Exec Triple :=
  let loop := TurtleToTriples.forLines parse lines
  ⟨loop.events, .close :: loop.defers, loop.outcome⟩

/-- The method `TurtleToTriples.Run`, on the lines received on `In` up to its
close. -/
def TurtleToTriples.Run (parse : TurtleParse) (lines : List String) : Trace Triple :=
  (TurtleToTriples.body parse lines).finish

/-! ## TriplePrinter -/

/-- The loop `for tr := range p.In` of `TriplePrinter.Run`. -/
def TriplePrinter.forTriples : List Triple → Exec Empty
  | [] => ⟨[], [], .returned⟩
  | tr :: rest =>
    (TriplePrinter.forTriples rest).after
      (.stdout (Sprintf "S: %s\nP: %s\nO: %s\n\n" [tr.Subj, tr.Pred, tr.Obj]))

/-- The body of `TriplePrinter.Run`: the loop alone, no deferred call. -/
def TriplePrinter.body (triples : List Triple) : Exec Empty :=
  TriplePrinter.forTriples triples

/-- The method `TriplePrinter.Run`, on the triples received on `In` up to its
close. -/
def TriplePrinter.Run (triples : List Triple) : Trace Empty :=
  (TriplePrinter.body triples).finish

/-! ## Wiring -/

/-- The three stages as `main` wires them: `turtleToTriples.In =
fileReader.OutLine` and `triplePrinter.In = turtleToTriples.Out`. -/
structure PipelineRun where
  reader : Trace String
  decoder : Trace Triple
  printer : Trace Empty

/-- The pipeline on the names received on `FileReader.InFileName` up to its
close.  A stage is given all that the stage before it sends, and its inbound
channel counts as closed when that stage closed it.  When a stage ends the
process, what the stages after it have done by then is a prefix of their
events here. -/
def pipeline (fs : FileSystem) (parse : TurtleParse) (fileNames : List String) : PipelineRun :=
  let reader := FileReader.Run fs fileNames
  let decoder := (TurtleToTriples.body parse (sentOf reader.events)).endOn reader.closedOut
  let printer := (TriplePrinter.body (sentOf decoder.events)).endOn decoder.closedOut
  ⟨reader, decoder, printer⟩

/-- The function `main` after flag parsing: an empty `--infile` is a usage
error, otherwise the feeder sends the one name and closes `InFileName`. -/
def main (fs : FileSystem) (parse : TurtleParse) (inFileName : String) :
    Except (Trace Empty) PipelineRun :=
  if inFileName = "" then .error ⟨[.stdout "No filename specified to --infile\n"], .exited 1⟩
  else .ok (pipeline fs parse [inFileName])

/-- The completion discipline of a stage, read on a finished run: a run that
returns ends with the one close of the outbound channel, and in any run
nothing that follows a close is a send or a second close. -/
def CloseDiscipline {α : Type} (t : Trace α) : Prop :=
  (t.outcome = .returned → ∃ before, t.events = before ++ [.close] ∧ Event.close ∉ before) ∧
  (∀ before after, t.events = before ++ Event.close :: after →
    ∀ e ∈ after, e ≠ Event.close ∧ ∀ a, e ≠ Event.send a)

/-- The number of calls of `close(Out)` among the events. -/
def closeCount {α : Type} : List (Event α) → Nat
  | [] => 0
  | .close :: rest => closeCount rest + 1
  | _ :: rest => closeCount rest

/-- The run closes its outbound channel exactly once, as its last event. -/
def ClosesOnce {α : Type} (t : Trace α) : Prop :=
  closeCount t.events = 1 ∧ ∃ before, t.events = before ++ [.close] ∧ Event.close ∉ before

/-! ## Lemmas on the library functions -/

theorem genSplit_space_length (cur s : List Char) :
    (genSplit [' '] 0 cur s).length = s.count ' ' + 1 := by
  induction s generalizing cur with
  | nil => simp [genSplit]
  | cons c rest ih =>
    by_cases h : c = ' '
    · subst h
      simp [genSplit, ih]
    · have h2 : ¬ ' ' = c := fun e => h e.symm
      simp [genSplit, ih, h, h2, List.count_cons]

theorem genSplit_space_token (cur s rest : List Char) (hs : ' ' ∉ s) :
    genSplit [' '] 0 cur (s ++ ' ' :: rest) = (cur ++ s) :: genSplit [' '] 0 [] rest := by
  induction s generalizing cur with
  | nil => simp [genSplit]
  | cons c t ih =>
    have hc : ¬ ' ' = c := fun h => hs (h ▸ List.mem_cons_self _ _)
    have ht : ' ' ∉ t := fun h => hs (List.mem_cons_of_mem _ h)
    simp [genSplit, hc, ih _ ht]

theorem genSplit_space_last (cur s : List Char) (hs : ' ' ∉ s) :
    genSplit [' '] 0 cur s = [cur ++ s] := by
  induction s generalizing cur with
  | nil => simp [genSplit]
  | cons c t ih =>
    have hc : ¬ ' ' = c := fun h => hs (h ▸ List.mem_cons_self _ _)
    have ht : ' ' ∉ t := fun h => hs (List.mem_cons_of_mem _ h)
    simp [genSplit, hc, ih _ ht]

theorem Split_space_length (line : String) :
    (Split line " ").length = line.data.count ' ' + 1 := by
  simp [Split, genSplit_space_length]

theorem Split_space_three (s p o : String)
    (hs : ' ' ∉ s.data) (hp : ' ' ∉ p.data) (ho : ' ' ∉ o.data) :
    Split (s ++ " " ++ p ++ " " ++ o) " " = [s, p, o] := by
  have h : (s ++ " " ++ p ++ " " ++ o).data
      = s.data ++ ' ' :: (p.data ++ ' ' :: o.data) := by
    simp [String.data_append]
  simp [Split, h, genSplit_space_token _ _ _ hs, genSplit_space_token _ _ _ hp,
    genSplit_space_last _ _ ho]

theorem Sprintf_block (s p o : String) :
    Sprintf "S: %s\nP: %s\nO: %s\n\n" [s, p, o]
      = "S: " ++ s ++ "\nP: " ++ p ++ "\nO: " ++ o ++ "\n\n" := by
  apply String.ext
  simp [Sprintf, formatChars, String.data_append]

theorem Sprintf_parse_error (err : String) :
    Sprintf "Error parsing turtle: %v" [err] = "Error parsing turtle: " ++ err := by
  apply String.ext
  simp [Sprintf, formatChars, String.data_append]

/-! ## Lemmas on the stages -/

theorem finish_close_after {α : Type} (e : Event α) (x : Exec α) :
    Exec.finish ⟨(x.after e).events, .close :: (x.after e).defers, (x.after e).outcome⟩
      = ⟨e :: (Exec.finish ⟨x.events, .close :: x.defers, x.outcome⟩).events,
          (Exec.finish ⟨x.events, .close :: x.defers, x.outcome⟩).outcome⟩ := by
  cases x with
  | mk ev df out => cases out <;> simp [Exec.finish, Exec.after]

theorem endOn_true {α : Type} (x : Exec α) : x.endOn true = x.finish := by
  cases x with
  | mk ev df out => cases out <;> rfl

theorem decode_of_split (line t0 t1 t2 : String) (more : List String)
    (h : Split line " " = t0 :: t1 :: t2 :: more) :
    TripleParser.decode line = .ok ⟨t0, t1, t2⟩ := by
  simp [TripleParser.decode, h, index, NewRDFTriple, bind, Except.bind, pure, Except.pure]

theorem TripleParser.forLines_ok_prefix (pre : List String) (ts : List RDFTriple)
    (rest : List String)
    (h : List.Forall₂ (fun l t => TripleParser.decode l = .ok t) pre ts) :
    TripleParser.forLines (pre ++ rest)
      = ⟨ts.map .send ++ (TripleParser.forLines rest).events,
          (TripleParser.forLines rest).defers, (TripleParser.forLines rest).outcome⟩ := by
  induction h with
  | nil => simp
  | cons hd _ ih => simp [TripleParser.forLines, hd, ih, Exec.after]

theorem TurtleToTriples.forLines_parsed_prefix (parse : TurtleParse) (pre : List String)
    (results : List (List Triple)) (rest : List String)
    (h : List.Forall₂ (fun l r => parse l = .ok r) pre results) :
    TurtleToTriples.forLines parse (pre ++ rest)
      = ⟨results.flatten.map .send ++ (TurtleToTriples.forLines parse rest).events,
          (TurtleToTriples.forLines parse rest).defers,
          (TurtleToTriples.forLines parse rest).outcome⟩ := by
  induction h with
  | nil => simp
  | cons hd _ ih => simp [TurtleToTriples.forLines, hd, ih]

theorem sentOf_map_send {α : Type} (xs : List α) (tail : List (Event α)) :
    sentOf (xs.map Event.send ++ tail) = xs ++ sentOf tail := by
  induction xs with
  | nil => simp
  | cons x t ih => simp [sentOf, ih]

/-! ## Lemmas on the completion discipline -/

theorem closeDiscipline_last {α : Type} (pre : List (Event α)) (o : Outcome)
    (h : Event.close ∉ pre) : CloseDiscipline (⟨pre ++ [.close], o⟩ : Trace α) := by
  refine ⟨fun _ => ⟨pre, rfl, h⟩, ?_⟩
  intro before after hsplit
  replace hsplit : pre ++ [Event.close] = before ++ Event.close :: after := hsplit
  have hnil : after = [] := by
    induction pre generalizing before with
    | nil =>
      cases before with
      | nil => simpa using hsplit
      | cons b bs =>
        have hlen := congrArg List.length hsplit
        simp at hlen
    | cons x t ih =>
      cases before with
      | nil =>
        simp only [List.cons_append, List.nil_append, List.cons.injEq] at hsplit
        exact absurd (hsplit.1 ▸ List.mem_cons_self _ _) h
      | cons b bs =>
        simp only [List.cons_append, List.cons.injEq] at hsplit
        exact ih (fun hm => h (List.mem_cons_of_mem _ hm)) bs hsplit.2
  subst hnil
  intro e he
  cases he

theorem closeDiscipline_none {α : Type} (ev : List (Event α)) (o : Outcome)
    (h : Event.close ∉ ev) (ho : o ≠ .returned) : CloseDiscipline (⟨ev, o⟩ : Trace α) := by
  refine ⟨fun hr => absurd hr ho, ?_⟩
  intro before after hsplit
  exact absurd (by simp [show ev = before ++ Event.close :: after from hsplit]) h

theorem closeDiscipline_endOn {α : Type} (x : Exec α) (inClosed : Bool)
    (hev : Event.close ∉ x.events) (hdf : Event.close ∉ x.defers) :
    CloseDiscipline (Exec.endOn inClosed ⟨x.events, .close :: x.defers, x.outcome⟩) := by
  have hpre : Event.close ∉ x.events ++ x.defers.reverse := by
    simp [hev, hdf]
  have hlast : ∀ o, CloseDiscipline
      (⟨x.events ++ (Event.close :: x.defers).reverse, o⟩ : Trace α) := by
    intro o
    have := closeDiscipline_last (x.events ++ x.defers.reverse) o hpre
    simpa using this
  cases hx : x.outcome with
  | returned =>
    cases inClosed with
    | true => simpa [Exec.endOn, Exec.finish, hx] using hlast .returned
    | false => simpa [Exec.endOn, hx] using closeDiscipline_none x.events .blocked hev (by simp)
  | exited code =>
    cases inClosed <;>
      simpa [Exec.endOn, Exec.finish, hx] using
        closeDiscipline_none x.events (.exited code) hev (by simp)
  | panicked e =>
    cases inClosed <;> simpa [Exec.endOn, Exec.finish, hx] using hlast (.panicked e)
  | blocked =>
    cases inClosed <;> simpa [Exec.endOn, Exec.finish, hx] using hlast .blocked

theorem FileReader.scanLoop_keeps_open (steps : List ScanStep) :
    Event.close ∉ (FileReader.scanLoop steps).events ∧ (FileReader.scanLoop steps).defers = [] := by
  induction steps with
  | nil => simp [FileReader.scanLoop]
  | cons st rest ih =>
    cases hst : st.err with
    | none => simpa [FileReader.scanLoop, hst, Exec.after] using ih
    | some err => simp [FileReader.scanLoop, hst]

theorem FileReader.forFiles_keeps_open (fs : FileSystem) (fileNames : List String) :
    Event.close ∉ (FileReader.forFiles fs fileNames).events ∧
    Event.close ∉ (FileReader.forFiles fs fileNames).defers := by
  induction fileNames with
  | nil => simp [FileReader.forFiles]
  | cons name rest ih =>
    cases hfs : fs name with
    | error err => simp [FileReader.forFiles, hfs]
    | ok sc =>
      have hsc := (FileReader.scanLoop_keeps_open sc.scans).1
      cases ho : (FileReader.scanLoop sc.scans).outcome <;>
        simp [FileReader.forFiles, hfs, ho, hsc, ih.1, ih.2]

theorem TripleParser.forLines_never_closes (lines : List String) :
    Event.close ∉ (TripleParser.forLines lines).events ∧
    Event.close ∉ (TripleParser.forLines lines).defers := by
  induction lines with
  | nil => simp [TripleParser.forLines]
  | cons line rest ih =>
    cases hd : TripleParser.decode line with
    | error e => simp [TripleParser.forLines, hd]
    | ok t => simpa [TripleParser.forLines, hd, Exec.after] using ih

theorem TurtleToTriples.forLines_keeps_open (parse : TurtleParse) (lines : List String) :
    Event.close ∉ (TurtleToTriples.forLines parse lines).events ∧
    Event.close ∉ (TurtleToTriples.forLines parse lines).defers := by
  induction lines with
  | nil => simp [TurtleToTriples.forLines]
  | cons line rest ih =>
    cases hp : parse line with
    | error e => simp [TurtleToTriples.forLines, hp]
    | ok ts => simpa [TurtleToTriples.forLines, hp] using ih

theorem closeCount_append {α : Type} (xs ys : List (Event α)) :
    closeCount (xs ++ ys) = closeCount xs + closeCount ys := by
  induction xs with
  | nil => simp [closeCount]
  | cons e rest ih =>
    cases e <;> simp [closeCount, ih]
    omega

theorem closeCount_of_not_mem {α : Type} (xs : List (Event α)) (h : Event.close ∉ xs) :
    closeCount xs = 0 := by
  induction xs with
  | nil => rfl
  | cons e rest ih =>
    have hr : Event.close ∉ rest := fun hm => h (List.mem_cons_of_mem _ hm)
    cases e with
    | close => exact absurd (List.mem_cons_self _ _) h
    | send a => simpa [closeCount] using ih hr
    | release n => simpa [closeCount] using ih hr
    | stderr m => simpa [closeCount] using ih hr
    | stdout t => simpa [closeCount] using ih hr

theorem finish_outcome {α : Type} (x : Exec α) : x.finish.outcome = x.outcome := by
  cases x with
  | mk ev df out => cases out <;> rfl

theorem closesOnce_finish {α : Type} (x : Exec α)
    (hev : Event.close ∉ x.events) (hdf : Event.close ∉ x.defers)
    (ho : ∀ code, x.outcome ≠ .exited code) :
    ClosesOnce (Exec.finish ⟨x.events, .close :: x.defers, x.outcome⟩) := by
  have hpre : Event.close ∉ x.events ++ x.defers.reverse := by
    simp [hev, hdf]
  have hev : (Exec.finish ⟨x.events, .close :: x.defers, x.outcome⟩).events
      = (x.events ++ x.defers.reverse) ++ [.close] := by
    cases hx : x.outcome with
    | exited code => exact absurd hx (ho code)
    | returned => simp [Exec.finish]
    | panicked e => simp [Exec.finish]
    | blocked => simp [Exec.finish]
  refine ⟨?_, _, hev, hpre⟩
  rw [hev, closeCount_append, closeCount_of_not_mem _ hpre]
  rfl

theorem unclosed_finish {α : Type} (x : Exec α) (code : Nat)
    (hev : Event.close ∉ x.events) (ho : x.outcome = .exited code) :
    closeCount (Exec.finish ⟨x.events, .close :: x.defers, x.outcome⟩).events = 0 := by
  simp [Exec.finish, ho, closeCount_of_not_mem _ hev]

theorem FileReader.scanLoop_outcome (steps : List ScanStep) :
    ((FileReader.scanLoop steps).outcome = .returned ↔ ∀ st ∈ steps, st.err = none) ∧
    ((FileReader.scanLoop steps).outcome = .returned ∨
      (FileReader.scanLoop steps).outcome = .exited 1) := by
  induction steps with
  | nil => simp [FileReader.scanLoop]
  | cons st rest ih =>
    cases hst : st.err with
    | none => simpa [FileReader.scanLoop, hst, Exec.after] using ih
    | some err => simp [FileReader.scanLoop, hst]

theorem FileReader.forFiles_outcome (fs : FileSystem) (fileNames : List String) :
    ((FileReader.forFiles fs fileNames).outcome = .returned ↔
      ∀ name ∈ fileNames, ∃ sc, fs name = .ok sc ∧ ∀ st ∈ sc.scans, st.err = none) ∧
    ((FileReader.forFiles fs fileNames).outcome = .returned ∨
      (FileReader.forFiles fs fileNames).outcome = .exited 1) := by
  induction fileNames with
  | nil => simp [FileReader.forFiles]
  | cons name rest ih =>
    cases hfs : fs name with
    | error err => simp [FileReader.forFiles, hfs]
    | ok sc =>
      have hsc := FileReader.scanLoop_outcome sc.scans
      rcases hsc.2 with ho | ho
      · have hall := hsc.1.1 ho
        have hand : ((∀ st ∈ sc.scans, st.err = none) ∧
            ∀ a ∈ rest, ∃ sc, fs a = .ok sc ∧ ∀ st ∈ sc.scans, st.err = none)
            ↔ ∀ a ∈ rest, ∃ sc, fs a = .ok sc ∧ ∀ st ∈ sc.scans, st.err = none :=
          ⟨fun h => h.2, fun h => ⟨hall, h⟩⟩
        simpa [FileReader.forFiles, hfs, ho, hand] using ih
      · have hnot : ¬ ∀ st ∈ sc.scans, st.err = none := fun hall => by
          have := hsc.1.2 hall
          simp [ho] at this
        simp [FileReader.forFiles, hfs, ho, hnot]

theorem TripleParser.decode_cases (line : String) :
    (3 ≤ (Split line " ").length ∧ ∃ t, TripleParser.decode line = .ok t) ∨
    ((Split line " ").length < 3 ∧ ∃ e, TripleParser.decode line = .error e) := by
  cases hbits : Split line " " with
  | nil => exact Or.inr ⟨by simp, _, by simp [TripleParser.decode, hbits, index, bind, Except.bind]; rfl⟩
  | cons t0 r0 =>
    cases r0 with
    | nil => exact Or.inr ⟨by simp, _, by simp [TripleParser.decode, hbits, index, bind, Except.bind]; rfl⟩
    | cons t1 r1 =>
      cases r1 with
      | nil => exact Or.inr ⟨by simp, _, by simp [TripleParser.decode, hbits, index, bind, Except.bind]; rfl⟩
      | cons t2 r2 => exact Or.inl ⟨by simp, _, decode_of_split line t0 t1 t2 r2 hbits⟩

theorem TripleParser.forLines_ends (lines : List String) :
    ((TripleParser.forLines lines).outcome = .returned ↔
      ∀ line ∈ lines, 3 ≤ (Split line " ").length) ∧
    ((TripleParser.forLines lines).outcome = .returned ∨
      ∃ e, (TripleParser.forLines lines).outcome = .panicked e) := by
  induction lines with
  | nil => simp [TripleParser.forLines]
  | cons line rest ih =>
    rcases TripleParser.decode_cases line with ⟨h3, t, ht⟩ | ⟨h3, e, he⟩
    · simpa [TripleParser.forLines, ht, Exec.after, h3] using ih
    · have : ¬ 3 ≤ (Split line " ").length := by omega
      simp [TripleParser.forLines, he, this]

theorem TurtleToTriples.forLines_ends_parsed (parse : TurtleParse) (lines : List String) :
    ((TurtleToTriples.forLines parse lines).outcome = .returned ↔
      ∀ line ∈ lines, ∃ triples, parse line = .ok triples) ∧
    ((TurtleToTriples.forLines parse lines).outcome = .returned ∨
      (TurtleToTriples.forLines parse lines).outcome = .exited 1) := by
  induction lines with
  | nil => simp [TurtleToTriples.forLines]
  | cons line rest ih =>
    cases hp : parse line with
    | error e => simp [TurtleToTriples.forLines, hp]
    | ok ts => simpa [TurtleToTriples.forLines, hp] using ih

/-! ## The claims -/

/-- C1: in `TripleParser.Run`, a line whose split on the single space has at
least three tokens is decoded to the triple of its first three tokens, and the
loop sends exactly that one triple for the line before it goes on with the
lines after it; a line `s + " " + p + " " + o` with no space inside `s`, `p`,
`o` gives the single triple `(s, p, o)`, and `"alice knows bob"` gives
`(alice, knows, bob)`. -/
theorem TripleParser_Run_three_tokens :
    (∀ (line : String) (rest : List String) (t0 t1 t2 : String) (more : List String),
      Split line " " = t0 :: t1 :: t2 :: more →
        TripleParser.decode line = .ok ⟨t0, t1, t2⟩ ∧
        TripleParser.forLines (line :: rest)
          = (TripleParser.forLines rest).after (.send ⟨t0, t1, t2⟩) ∧
        (TripleParser.Run (line :: rest)).events
          = .send ⟨t0, t1, t2⟩ :: (TripleParser.Run rest).events ∧
        TripleParser.Run [line] = ⟨[.send ⟨t0, t1, t2⟩, .close], .returned⟩) ∧
    (∀ s p o : String, ' ' ∉ s.data → ' ' ∉ p.data → ' ' ∉ o.data →
        Split (s ++ " " ++ p ++ " " ++ o) " " = [s, p, o] ∧
        TripleParser.Run [s ++ " " ++ p ++ " " ++ o]
          = ⟨[.send ⟨s, p, o⟩, .close], .returned⟩) ∧
    TripleParser.Run ["alice knows bob"]
      = ⟨[.send ⟨"alice", "knows", "bob"⟩, .close], .returned⟩ := by
  have key : ∀ (line : String) (rest : List String) (t0 t1 t2 : String) (more : List String),
      Split line " " = t0 :: t1 :: t2 :: more →
        TripleParser.decode line = .ok ⟨t0, t1, t2⟩ ∧
        TripleParser.forLines (line :: rest)
          = (TripleParser.forLines rest).after (.send ⟨t0, t1, t2⟩) ∧
        (TripleParser.Run (line :: rest)).events
          = .send ⟨t0, t1, t2⟩ :: (TripleParser.Run rest).events ∧
        TripleParser.Run [line] = ⟨[.send ⟨t0, t1, t2⟩, .close], .returned⟩ := by
    intro line rest t0 t1 t2 more h
    have hd := decode_of_split line t0 t1 t2 more h
    have hf : ∀ r, TripleParser.forLines (line :: r)
        = (TripleParser.forLines r).after (.send ⟨t0, t1, t2⟩) := by
      intro r
      simp [TripleParser.forLines, hd]
    refine ⟨hd, hf rest, ?_, ?_⟩
    · simp only [TripleParser.Run, TripleParser.body, hf, finish_close_after]
    · simp [TripleParser.Run, TripleParser.body, TripleParser.forLines, hd, Exec.after,
        Exec.finish]
  refine ⟨key, ?_, by decide⟩
  intro s p o hs hp ho
  have h3 := Split_space_three s p o hs hp ho
  exact ⟨h3, (key _ [] s p o [] h3).2.2.2⟩

/-- Witness of C1: the line `"a b c d"` has four tokens and is decoded to
`(a, b, c)`; the tokens `"x"`, `"y"`, `"z"` hold no space. -/
theorem TripleParser_Run_three_tokens_witness :
    Split "a b c d" " " = ["a", "b", "c", "d"] ∧
    TripleParser.Run ["a b c d"] = ⟨[.send ⟨"a", "b", "c"⟩, .close], .returned⟩ ∧
    TripleParser.Run ["x" ++ " " ++ "y" ++ " " ++ "z"]
      = ⟨[.send ⟨"x", "y", "z"⟩, .close], .returned⟩ :=
  ⟨by decide,
   (TripleParser_Run_three_tokens.1 "a b c d" [] "a" "b" "c" ["d"] (by decide)).2.2.2,
   (TripleParser_Run_three_tokens.2.1 "x" "y" "z" (by decide) (by decide) (by decide)).2⟩

/-- C2: in `TurtleToTriples.Run`, when the parser succeeds on every line, the
triples sent on `Out` are the concatenation, in line order, of the result
lists of the parser, followed by the close of `Out`; the triples of a prefix
of the lines come before those of the remaining lines, and a line whose
result is empty changes nothing. -/
theorem TurtleToTriples_Run_order (parse : TurtleParse) (lines : List String)
    (results : List (List Triple))
    (h : List.Forall₂ (fun l r => parse l = .ok r) lines results) :
    TurtleToTriples.Run parse lines = ⟨results.flatten.map .send ++ [.close], .returned⟩ ∧
    sentOf (TurtleToTriples.Run parse lines).events = results.flatten ∧
    (∀ k, sentOf (TurtleToTriples.Run parse lines).events
        = sentOf (TurtleToTriples.Run parse (lines.take k)).events
          ++ sentOf (TurtleToTriples.Run parse (lines.drop k)).events) ∧
    (∀ pre l post, parse l = .ok [] →
        TurtleToTriples.Run parse (pre ++ l :: post)
          = TurtleToTriples.Run parse (pre ++ post)) := by
  have run : ∀ (ls : List String) (rs : List (List Triple)),
      List.Forall₂ (fun l r => parse l = .ok r) ls rs →
      TurtleToTriples.Run parse ls = ⟨rs.flatten.map .send ++ [.close], .returned⟩ := by
    intro ls rs hf
    have := TurtleToTriples.forLines_parsed_prefix parse ls rs [] hf
    simp only [List.append_nil] at this
    simp [TurtleToTriples.Run, TurtleToTriples.body, this, TurtleToTriples.forLines,
      Exec.finish]
  have sent : ∀ (ls : List String) (rs : List (List Triple)),
      List.Forall₂ (fun l r => parse l = .ok r) ls rs →
      sentOf (TurtleToTriples.Run parse ls).events = rs.flatten := by
    intro ls rs hf
    rw [run ls rs hf]
    show sentOf (rs.flatten.map Event.send ++ [Event.close]) = rs.flatten
    rw [sentOf_map_send]
    simp [sentOf]
  refine ⟨run _ _ h, sent _ _ h, ?_, ?_⟩
  · intro k
    rw [sent _ _ h, sent _ _ (List.forall₂_take k h), sent _ _ (List.forall₂_drop k h),
      ← List.flatten_append, List.take_append_drop]
  · intro pre l post hl
    have step : ∀ ls, TurtleToTriples.forLines parse (ls ++ l :: post)
        = TurtleToTriples.forLines parse (ls ++ post) := by
      intro ls
      induction ls with
      | nil => simp [TurtleToTriples.forLines, hl]
      | cons x t ih => simp [TurtleToTriples.forLines, ih]
    simp [TurtleToTriples.Run, TurtleToTriples.body, step]

/-- Witness of C2: a parser that gives two triples for `"a"` and none for
`"#"`. -/
theorem TurtleToTriples_Run_order_witness :
    TurtleToTriples.Run
        (fun l => if l = "a" then .ok [⟨"s", "p", "o"⟩, ⟨"s", "p", "q"⟩] else .ok [])
        ["a", "#"]
      = ⟨[.send ⟨"s", "p", "o"⟩, .send ⟨"s", "p", "q"⟩, .close], .returned⟩ :=
  (TurtleToTriples_Run_order
    (fun l => if l = "a" then .ok [⟨"s", "p", "o"⟩, ⟨"s", "p", "q"⟩] else .ok [])
    ["a", "#"] [[⟨"s", "p", "o"⟩, ⟨"s", "p", "q"⟩], []]
    (List.Forall₂.cons rfl (List.Forall₂.cons rfl List.Forall₂.nil))).1

/-- C3: `TriplePrinter.Run` writes one block per triple received, in arrival
order, the block of `(s, p, o)` being `"S: " + s + "\nP: " + p + "\nO: " + o +
"\n\n"`; the text on standard output is the concatenation of the blocks, and
`(alice, knows, bob)` prints `"S: alice\nP: knows\nO: bob\n\n"`. -/
theorem TriplePrinter_Run_output :
    (∀ triples : List Triple,
      TriplePrinter.Run triples
        = ⟨triples.map (fun tr => .stdout
            ("S: " ++ tr.Subj ++ "\nP: " ++ tr.Pred ++ "\nO: " ++ tr.Obj ++ "\n\n")),
            .returned⟩ ∧
      stdoutOf (TriplePrinter.Run triples).events
        = (triples.map (fun tr =>
            "S: " ++ tr.Subj ++ "\nP: " ++ tr.Pred ++ "\nO: " ++ tr.Obj ++ "\n\n")).foldr
            (fun block text => block ++ text) "") ∧
    stdoutOf (TriplePrinter.Run [⟨"alice", "knows", "bob"⟩]).events
      = "S: alice\nP: knows\nO: bob\n\n" := by
  have body : ∀ triples : List Triple,
      TriplePrinter.forTriples triples
        = ⟨triples.map (fun tr => .stdout
            ("S: " ++ tr.Subj ++ "\nP: " ++ tr.Pred ++ "\nO: " ++ tr.Obj ++ "\n\n")),
            [], .returned⟩ := by
    intro triples
    induction triples with
    | nil => simp [TriplePrinter.forTriples]
    | cons tr rest ih => simp [TriplePrinter.forTriples, ih, Exec.after, Sprintf_block]
  refine ⟨fun triples =>
    ⟨by simp [TriplePrinter.Run, TriplePrinter.body, body, Exec.finish], ?_⟩, by decide⟩
  simp only [TriplePrinter.Run, TriplePrinter.body, body, Exec.finish, List.reverse_nil,
    List.append_nil]
  induction triples with
  | nil => simp [stdoutOf]
  | cons tr rest ih => simp [stdoutOf, ih]

/-- C4 (the code departs from the claim): a scanner that delivers the line
`"a b c"` and then stops with a read error leaves `FileReader.Run` to return
as on a plain end of input, the line sent and `OutLine` closed, with no
message and no exit; the check of `sc.Err()` sits inside the loop and is fatal
only when the error comes together with a token. -/
theorem FileReader_Run_scan_error_not_fatal :
    FileReader.Run
        (fun _ => .ok ⟨[⟨"a b c", none⟩], some "read in.ttl: input/output error"⟩)
        ["in.ttl"]
      = ⟨[.send "a b c", .release "in.ttl", .close], .returned⟩ ∧
    FileReader.Run
        (fun _ => .ok ⟨[⟨"a b c", none⟩], some "read in.ttl: input/output error"⟩)
        ["in.ttl"]
      = FileReader.Run (fun _ => .ok ⟨[⟨"a b c", none⟩], none⟩) ["in.ttl"] ∧
    FileReader.Run
        (fun _ => .ok ⟨[⟨"a b c", none⟩, ⟨"d e", some "read in.ttl: input/output error"⟩],
          some "read in.ttl: input/output error"⟩)
        ["in.ttl"]
      = ⟨[.send "a b c", .stderr "read in.ttl: input/output error"], .exited 1⟩ := by
  refine ⟨?_, ?_, ?_⟩ <;> rfl

/-- C5, as stated, fails: with a parser that rejects the line `"@@@"` with the
error `unexpected token`, the only message reported is `Error parsing turtle:
unexpected token`, and the offending line does not occur in it. -/
theorem TurtleToTriples_Run_message_omits_line :
    TurtleToTriples.Run (fun _ => .error "unexpected token") ["@@@"]
      = ⟨[.stderr "Error parsing turtle: unexpected token"], .exited 1⟩ ∧
    ∀ msg, Event.stderr msg ∈
        (TurtleToTriples.Run (fun _ => .error "unexpected token") ["@@@"]).events →
      ¬ "@@@".data <:+: msg.data := by
  have run : TurtleToTriples.Run (fun _ => .error "unexpected token") ["@@@"]
      = ⟨[.stderr "Error parsing turtle: unexpected token"], .exited 1⟩ := by rfl
  refine ⟨run, ?_⟩
  intro msg hmsg
  rw [run] at hmsg
  have : msg = "Error parsing turtle: unexpected token" := by simpa using hmsg
  subst this
  decide

/-- C5, amended: when the parser fails on a line, and succeeds on the lines
before it, `TurtleToTriples.Run` sends exactly the triples of the lines
before, none of the failing line or of a later line, reports the message
`Error parsing turtle: ` followed by the error of the parser (so the message
contains that error), and ends the process with exit status 1, a non-zero
status, without closing `Out`. -/
theorem TurtleToTriples_Run_parse_failure (parse : TurtleParse) (pre : List String)
    (results : List (List Triple)) (line err : String) (post : List String)
    (hpre : List.Forall₂ (fun l r => parse l = .ok r) pre results)
    (hline : parse line = .error err) :
    TurtleToTriples.Run parse (pre ++ line :: post)
      = ⟨results.flatten.map .send ++ [.stderr ("Error parsing turtle: " ++ err)],
          .exited 1⟩ ∧
    sentOf (TurtleToTriples.Run parse (pre ++ line :: post)).events = results.flatten ∧
    err.data <:+: ("Error parsing turtle: " ++ err).data ∧
    Event.close ∉ (TurtleToTriples.Run parse (pre ++ line :: post)).events ∧
    (TurtleToTriples.Run parse (pre ++ line :: post)).outcome ≠ .exited 0 := by
  have run : TurtleToTriples.Run parse (pre ++ line :: post)
      = ⟨results.flatten.map .send ++ [.stderr ("Error parsing turtle: " ++ err)],
          .exited 1⟩ := by
    simp [TurtleToTriples.Run, TurtleToTriples.body,
      TurtleToTriples.forLines_parsed_prefix parse pre results _ hpre, TurtleToTriples.forLines,
      hline, Exec.finish, Sprintf_parse_error]
  refine ⟨run, ?_, ?_, ?_, ?_⟩
  · rw [run]
    show sentOf (results.flatten.map Event.send ++ [Event.stderr _]) = results.flatten
    rw [sentOf_map_send]
    simp [sentOf]
  · rw [String.data_append]
    exact ⟨"Error parsing turtle: ".data, [], by simp⟩
  · rw [run]
    simp
  · rw [run]
    simp

/-- Witness of C5, amended: the second line is rejected, the triple of the
first line is sent before the message. -/
theorem TurtleToTriples_Run_parse_failure_witness :
    TurtleToTriples.Run
        (fun l => if l = "@@@" then .error "unexpected token" else .ok [⟨l, "p", "o"⟩])
        (["a"] ++ "@@@" :: ["b"])
      = ⟨[.send ⟨"a", "p", "o"⟩, .stderr ("Error parsing turtle: " ++ "unexpected token")],
          .exited 1⟩ :=
  (TurtleToTriples_Run_parse_failure
    (fun l => if l = "@@@" then .error "unexpected token" else .ok [⟨l, "p", "o"⟩])
    ["a"] [[⟨"a", "p", "o"⟩]] "@@@" "unexpected token" ["b"]
    (List.Forall₂.cons rfl List.Forall₂.nil) rfl).1

/-- C6: when the one name sent to `FileReader` cannot be opened,
`FileReader.Run` reports the error and ends the process with exit status 1
with nothing sent on `OutLine` (and `OutLine` not closed); in the pipeline the
decoder then receives no line and sends no triple, and the printer writes
nothing. -/
theorem FileReader_Run_open_failure (fs : FileSystem) (parse : TurtleParse)
    (name err : String) (h : fs name = .error err) :
    FileReader.Run fs [name] = ⟨[.stderr err], .exited 1⟩ ∧
    sentOf (FileReader.Run fs [name]).events = [] ∧
    (pipeline fs parse [name]).decoder = ⟨[], .blocked⟩ ∧
    (pipeline fs parse [name]).printer = ⟨[], .blocked⟩ ∧
    sentOf (pipeline fs parse [name]).decoder.events = [] ∧
    stdoutOf (pipeline fs parse [name]).printer.events = "" := by
  have run : FileReader.Run fs [name] = ⟨[.stderr err], .exited 1⟩ := by
    simp [FileReader.Run, FileReader.body, FileReader.forFiles, h, Exec.finish]
  simp [pipeline, run, sentOf, stdoutOf, Trace.closedOut, TurtleToTriples.body,
    TurtleToTriples.forLines, TriplePrinter.body, TriplePrinter.forTriples, Exec.endOn]

/-- Witness of C6: no name can be opened. -/
theorem FileReader_Run_open_failure_witness :
    FileReader.Run (fun n => .error ("open " ++ n ++ ": no such file or directory"))
        ["missing.ttl"]
      = ⟨[.stderr ("open " ++ "missing.ttl" ++ ": no such file or directory")], .exited 1⟩ :=
  (FileReader_Run_open_failure
    (fun n => .error ("open " ++ n ++ ": no such file or directory")) (fun _ => .ok [])
    "missing.ttl" ("open " ++ "missing.ttl" ++ ": no such file or directory") rfl).1

/-- C7: every stage with an outbound channel (`FileReader.Run`,
`TripleParser.Run`, `TurtleToTriples.Run`) keeps the completion discipline.
A run on an inbound channel that is closed and drained always comes to an
end: it returns exactly when no value received is fatal (every file opens and
scans without a pending error, every line has three tokens, every line
parses), and otherwise exits with status 1 or panics.  A run that returns
closes its outbound channel exactly once, as its last event, so after its
last send; a run that exits the process closes nothing; a run that panics
still closes once, last.  In every run, also one fed by a channel that is
never closed, nothing that follows the close is a send or a second close. -/
theorem stages_close_discipline :
    (∀ (fs : FileSystem) (fileNames : List String),
      ((FileReader.Run fs fileNames).outcome = .returned ∨
        (FileReader.Run fs fileNames).outcome = .exited 1) ∧
      ((FileReader.Run fs fileNames).outcome = .returned ↔
        ∀ name ∈ fileNames, ∃ sc, fs name = .ok sc ∧ ∀ st ∈ sc.scans, st.err = none) ∧
      ((FileReader.Run fs fileNames).outcome = .returned →
        ClosesOnce (FileReader.Run fs fileNames)) ∧
      ((FileReader.Run fs fileNames).outcome = .exited 1 →
        closeCount (FileReader.Run fs fileNames).events = 0) ∧
      CloseDiscipline (FileReader.Run fs fileNames) ∧
      CloseDiscipline ((FileReader.body fs fileNames).endOn false)) ∧
    (∀ lines : List String,
      ((TripleParser.Run lines).outcome = .returned ∨
        ∃ e, (TripleParser.Run lines).outcome = .panicked e) ∧
      ((TripleParser.Run lines).outcome = .returned ↔
        ∀ line ∈ lines, 3 ≤ (Split line " ").length) ∧
      ClosesOnce (TripleParser.Run lines) ∧
      CloseDiscipline (TripleParser.Run lines) ∧
      CloseDiscipline ((TripleParser.body lines).endOn false)) ∧
    (∀ (parse : TurtleParse) (lines : List String),
      ((TurtleToTriples.Run parse lines).outcome = .returned ∨
        (TurtleToTriples.Run parse lines).outcome = .exited 1) ∧
      ((TurtleToTriples.Run parse lines).outcome = .returned ↔
        ∀ line ∈ lines, ∃ triples, parse line = .ok triples) ∧
      ((TurtleToTriples.Run parse lines).outcome = .returned →
        ClosesOnce (TurtleToTriples.Run parse lines)) ∧
      ((TurtleToTriples.Run parse lines).outcome = .exited 1 →
        closeCount (TurtleToTriples.Run parse lines).events = 0) ∧
      CloseDiscipline (TurtleToTriples.Run parse lines) ∧
      CloseDiscipline ((TurtleToTriples.body parse lines).endOn false)) := by
  refine ⟨fun fs fileNames => ?_, fun lines => ?_, fun parse lines => ?_⟩
  · have h := FileReader.forFiles_keeps_open fs fileNames
    have ho := FileReader.forFiles_outcome fs fileNames
    have hout : (FileReader.Run fs fileNames).outcome
        = (FileReader.forFiles fs fileNames).outcome := by
      rw [FileReader.Run, finish_outcome]
      rfl
    refine ⟨by rw [hout]; exact ho.2, by rw [hout]; exact ho.1, ?_, ?_, ?_,
      closeDiscipline_endOn _ false h.1 h.2⟩
    · intro hr
      rw [hout] at hr
      exact closesOnce_finish (FileReader.forFiles fs fileNames) h.1 h.2
        (fun code hc => by simp [hr] at hc)
    · intro hx
      rw [hout] at hx
      exact unclosed_finish (FileReader.forFiles fs fileNames) 1 h.1 hx
    · rw [FileReader.Run, ← endOn_true]
      exact closeDiscipline_endOn _ true h.1 h.2
  · have h := TripleParser.forLines_never_closes lines
    have ho := TripleParser.forLines_ends lines
    have hout : (TripleParser.Run lines).outcome = (TripleParser.forLines lines).outcome := by
      rw [TripleParser.Run, finish_outcome]
      rfl
    refine ⟨by rw [hout]; exact ho.2, by rw [hout]; exact ho.1, ?_, ?_,
      closeDiscipline_endOn _ false h.1 h.2⟩
    · refine closesOnce_finish (TripleParser.forLines lines) h.1 h.2 (fun code hc => ?_)
      rcases ho.2 with hr | ⟨e, hp⟩
      · simp [hr] at hc
      · simp [hp] at hc
    · rw [TripleParser.Run, ← endOn_true]
      exact closeDiscipline_endOn _ true h.1 h.2
  · have h := TurtleToTriples.forLines_keeps_open parse lines
    have ho := TurtleToTriples.forLines_ends_parsed parse lines
    have hout : (TurtleToTriples.Run parse lines).outcome
        = (TurtleToTriples.forLines parse lines).outcome := by
      rw [TurtleToTriples.Run, finish_outcome]
      rfl
    refine ⟨by rw [hout]; exact ho.2, by rw [hout]; exact ho.1, ?_, ?_, ?_,
      closeDiscipline_endOn _ false h.1 h.2⟩
    · intro hr
      rw [hout] at hr
      exact closesOnce_finish (TurtleToTriples.forLines parse lines) h.1 h.2
        (fun code hc => by simp [hr] at hc)
    · intro hx
      rw [hout] at hx
      exact unclosed_finish (TurtleToTriples.forLines parse lines) 1 h.1 hx
    · rw [TurtleToTriples.Run, ← endOn_true]
      exact closeDiscipline_endOn _ true h.1 h.2

/-- Witness of C7: a file of one line is read to its end, so `FileReader.Run`
returns and closes `OutLine` once; two lines of three tokens let
`TripleParser.Run` return; a line that parses lets `TurtleToTriples.Run`
return and close `Out` once. -/
theorem stages_close_discipline_witness :
    ((FileReader.Run (fun _ => .ok ⟨[⟨"a b c", none⟩], none⟩) ["in.ttl"]).outcome = .returned ∧
      ClosesOnce (FileReader.Run (fun _ => .ok ⟨[⟨"a b c", none⟩], none⟩) ["in.ttl"])) ∧
    (TripleParser.Run ["a b c", "d e f"]).outcome = .returned ∧
    ((TurtleToTriples.Run (fun l => .ok [⟨l, "p", "o"⟩]) ["a"]).outcome = .returned ∧
      ClosesOnce (TurtleToTriples.Run (fun l => .ok [⟨l, "p", "o"⟩]) ["a"])) :=
  ⟨⟨(stages_close_discipline.1 (fun _ => .ok ⟨[⟨"a b c", none⟩], none⟩) ["in.ttl"]).2.1.2
      (by simp),
    (stages_close_discipline.1 (fun _ => .ok ⟨[⟨"a b c", none⟩], none⟩) ["in.ttl"]).2.2.1
      rfl⟩,
   (stages_close_discipline.2.1 ["a b c", "d e f"]).2.1.2 (by decide),
   ⟨(stages_close_discipline.2.2 (fun l => .ok [⟨l, "p", "o"⟩]) ["a"]).2.1.2 (by simp),
    (stages_close_discipline.2.2 (fun l => .ok [⟨l, "p", "o"⟩]) ["a"]).2.2.1 rfl⟩⟩

/-- C8: with `InFileName` closed and no name sent, `FileReader.Run` sends no
line and closes `OutLine`, `TurtleToTriples.Run` sends no triple and closes
`Out`, `TriplePrinter.Run` writes nothing, and the three stages return. -/
theorem pipeline_empty_run (fs : FileSystem) (parse : TurtleParse) :
    FileReader.Run fs [] = ⟨[.close], .returned⟩ ∧
    TurtleToTriples.Run parse [] = ⟨[.close], .returned⟩ ∧
    TriplePrinter.Run [] = ⟨[], .returned⟩ ∧
    pipeline fs parse []
      = ⟨⟨[.close], .returned⟩, ⟨[.close], .returned⟩, ⟨[], .returned⟩⟩ ∧
    sentOf (pipeline fs parse []).reader.events = [] ∧
    sentOf (pipeline fs parse []).decoder.events = [] ∧
    stdoutOf (pipeline fs parse []).printer.events = "" := by
  refine ⟨rfl, rfl, rfl, rfl, rfl, rfl, rfl⟩

/-- C10: in `TripleParser.Run`, a line has fewer than three tokens exactly
when it holds fewer than two spaces; on such a line (the empty line is one)
the read of `bits[1]` or `bits[2]` is out of range, the stage panics and no
triple is sent for that line or any later one; on a line with at least two
spaces the three index reads are in range and the line is decoded. -/
theorem TripleParser_Run_too_few_tokens :
    (∀ line : String, (Split line " ").length < 3 ↔ line.data.count ' ' < 2) ∧
    (∀ (pre : List String) (sent : List RDFTriple) (line : String) (post : List String),
      List.Forall₂ (fun l t => TripleParser.decode l = .ok t) pre sent →
      line.data.count ' ' < 2 →
      ∃ i, (i = 1 ∨ i = 2) ∧ i = (Split line " ").length ∧
        index (Split line " ") i = .error (.indexOutOfRange i (Split line " ").length) ∧
        TripleParser.decode line = .error (.indexOutOfRange i (Split line " ").length) ∧
        TripleParser.Run (pre ++ line :: post)
          = ⟨sent.map .send ++ [.close],
              .panicked (.indexOutOfRange i (Split line " ").length)⟩) ∧
    (∀ line : String, 2 ≤ line.data.count ' ' →
      ∃ t0 t1 t2, index (Split line " ") 0 = .ok t0 ∧ index (Split line " ") 1 = .ok t1 ∧
        index (Split line " ") 2 = .ok t2 ∧ TripleParser.decode line = .ok ⟨t0, t1, t2⟩) ∧
    TripleParser.Run [""] = ⟨[.close], .panicked (.indexOutOfRange 1 1)⟩ := by
  refine ⟨fun line => ?_, ?_, ?_, by decide⟩
  · rw [Split_space_length]
    omega
  · intro pre sent line post hpre hcount
    have hlen := Split_space_length line
    have run : ∀ e, TripleParser.decode line = .error e →
        TripleParser.Run (pre ++ line :: post) = ⟨sent.map .send ++ [.close], .panicked e⟩ := by
      intro e he
      simp [TripleParser.Run, TripleParser.body,
        TripleParser.forLines_ok_prefix pre sent _ hpre, TripleParser.forLines, he, Exec.finish]
    cases hbits : Split line " " with
    | nil => simp [hbits] at hlen
    | cons t0 r0 =>
      cases r0 with
      | nil =>
        have hd : TripleParser.decode line = .error (.indexOutOfRange 1 1) := by
          simp [TripleParser.decode, hbits, index, bind, Except.bind]
        exact ⟨1, Or.inl rfl, by simp, by simp [index], by simpa using hd,
          by simpa using run _ hd⟩
      | cons t1 r1 =>
        cases r1 with
        | nil =>
          have hd : TripleParser.decode line = .error (.indexOutOfRange 2 2) := by
            simp [TripleParser.decode, hbits, index, bind, Except.bind]
          exact ⟨2, Or.inr rfl, by simp, by simp [index], by simpa using hd,
            by simpa using run _ hd⟩
        | cons t2 r2 =>
          simp [hbits] at hlen
          omega
  · intro line hcount
    have hlen := Split_space_length line
    cases hbits : Split line " " with
    | nil => simp [hbits] at hlen
    | cons t0 r0 =>
      cases r0 with
      | nil =>
        simp [hbits] at hlen
        omega
      | cons t1 r1 =>
        cases r1 with
        | nil =>
          simp [hbits] at hlen
          omega
        | cons t2 r2 =>
          exact ⟨t0, t1, t2, by simp [index], by simp [index], by simp [index],
            decode_of_split line t0 t1 t2 r2 hbits⟩

/-- Witness of C10: after the line `"a b c"`, the line `"x y"` holds one
space and `bits[2]` is out of range; the line `"a b c"` holds two spaces. -/
theorem TripleParser_Run_too_few_tokens_witness :
    (∃ i, (i = 1 ∨ i = 2) ∧ i = (Split "x y" " ").length ∧
        index (Split "x y" " ") i = .error (.indexOutOfRange i (Split "x y" " ").length) ∧
        TripleParser.decode "x y" = .error (.indexOutOfRange i (Split "x y" " ").length) ∧
        TripleParser.Run (["a b c"] ++ "x y" :: ["p q r"])
          = ⟨[⟨"a", "b", "c"⟩].map .send ++ [.close],
              .panicked (.indexOutOfRange i (Split "x y" " ").length)⟩) ∧
    (∃ t0 t1 t2, index (Split "a b c" " ") 0 = .ok t0 ∧ index (Split "a b c" " ") 1 = .ok t1 ∧
        index (Split "a b c" " ") 2 = .ok t2 ∧ TripleParser.decode "a b c" = .ok ⟨t0, t1, t2⟩) :=
  ⟨TripleParser_Run_too_few_tokens.2.1 ["a b c"] [⟨"a", "b", "c"⟩] "x y" ["p q r"]
      (List.Forall₂.cons rfl List.Forall₂.nil) (by decide),
    TripleParser_Run_too_few_tokens.2.2.1 "a b c" (by decide)⟩

end Rdf2smw
